import Mathlib

/-!
Verification of the generic reflective pretty-printer of the efibootctl
repository (package `printer`: `color.go` plus the map-sorting file, here
called the Ordering Module).

The embedding models Go `reflect` values by the inductive `GoPP.Value`:
each value carries its runtime type (`GoType`, the pair of `reflect.Kind`
and `Type().String()`).  Heap identity of maps, slices, pointers, channels
and functions is an explicit `addr : Nat` (the result of
`reflect.Value.Pointer()`).  The three struct types that `printStruct`
special-cases (`time.Time`, `big.Int`, `big.Float`) are dedicated
constructors carrying exactly the data their special renderings consume.
A value of a type implementing the `PrettyPrint(*Printer)` capability is
modelled as `vcustom` carrying the text its method emits.  `float64` /
`float32` payloads are modelled as `GoFloat`: NaN, the negative zero
(whose bit pattern `math.Float64bits` distinguishes from the positive
zero although it compares numerically equal to it), or an exact rational
(`fin 0` being the positive zero); this captures every comparison and
zero-test the printer performs on floats except infinities, which no
traversal path in scope distinguishes.  The special-cased struct
constructors and `vcustom` carry, besides their rendering payload, the
one further attribute `reflect.Value.IsZero` observes of them — whether
every underlying field holds its zero value — since that is not
derivable from the rendering payload (exactly as `vmap` carries the
nil-ness that only the zero test observes).

Functions that recurse through a `Value` (the renderer `fmtFuel` and the
zero test `vZeroF`) are step-indexed: the `Nat` fuel bounds the recursion
depth, every recursive call uses one unit, and exhaustion is the distinct
result `FRes.nofuel` (for the zero test, the conservative answer `false`),
never confused with a Go runtime panic, which is modelled as
`FRes.crashed`.  All theorems quantify over the fuel or instantiate it
concretely, so no statement depends on a particular fuel choice.

Go's `strconv.Quote` is modelled faithfully on the ASCII range; characters
at or above 0x80 are kept verbatim (Go additionally consults the Unicode
printability tables there, which no claim exercises).  Go's `%f` rounding
of the exact rational uses round-half-away-from-zero here; the printer
never formats a float on any path a claim depends on.  String ordering
(`a.String() < b.String()` in the Ordering Module, a bytewise comparison
in Go) is code-point lexicographic comparison, which agrees with bytewise
comparison on UTF-8 text.  The `text/tabwriter` post-pass that expands the
emitted tab stops into aligned spaces is a deterministic line-local
transformation of the emitted character stream; the embedding's output is
that character stream (tabs and newlines included), on which all claimed
properties are stated.
-/

namespace GoPP

/-- The `reflect.Kind` of a value, restricted to the kinds the printer
distinguishes (complex kinds are not modelled; no claim mentions them). -/
inductive GoKind where
  | bool | int | int8 | int16 | int32 | int64
  | uint | uint8 | uint16 | uint32 | uint64 | uintptr
  | float32 | float64 | string
  | map | struct | array | slice | ptr | iface | chan | func
  | rawptr  -- reflect.UnsafePointer
  | invalid
deriving DecidableEq, Repr

/-- A Go runtime type: its kind together with `Type().String()`. -/
structure GoType where
  kind : GoKind
  name : String
deriving DecidableEq, Repr

/-- A `float64` payload: NaN, the negative zero, or an exact rational
value (every finite float64 is rational; `fin 0` is the positive zero,
the one value whose bits `math.Float64bits` maps to 0).  Infinities are
not modelled; the printer compares floats only with `<` and `!=` and
zero-tests them, and no claim involves infinite values. -/
inductive GoFloat where
  | nan
  | negzero
  | fin (q : ℚ)
deriving DecidableEq

/-- `reflect.Value.Float()`: the numeric value of the payload (`none`
for NaN, whose every comparison is false; the negative zero compares as
0). -/
def GoFloat.val : GoFloat → Option ℚ
  | .nan => none
  | .negzero => some 0
  | .fin q => some q

/-- A Go runtime value as seen by `reflect`, as traversed by the printer.
Cyclic heaps are represented by their finite unrollings: a repeated
`addr` marks the same heap identity, and the printer's visited set stops
the traversal there exactly as in Go.  Struct fields are
`(name, pp-tag ("" when absent), exported?, value)`.  The `isZero` flag
on the special-cased struct constructors and on `vcustom` records
whether every underlying field (for `vcustom`: the underlying value of
its kind) is zero — the attribute `valueIsZero` observes by recursing
through the declared fields, which the rendering payload does not
determine. -/
inductive Value where
  | vbool (t : GoType) (b : Bool)
  | vint (t : GoType) (n : Int)
  | vuint (t : GoType) (n : Nat)
  | vfloat (t : GoType) (x : GoFloat)
  | vstring (t : GoType) (s : String)
  | vmap (t : GoType) (addr : Nat) (isNil : Bool) (entries : List (Value × Value))
  | vstruct (t : GoType) (fields : List (String × String × Bool × Value))
  | vtime (t : GoType) (y mo dd hh mi ss : Nat) (zone : String) (isZero : Bool)
  | vbigint (t : GoType) (n : Int) (isZero : Bool)
  | vbigfloat (t : GoType) (str : String) (isZero : Bool)
  | varray (t elemT : GoType) (elems : List Value)
  | vslice (t elemT : GoType) (addr : Nat) (isNil : Bool) (elems : List Value)
  | vptr (t elemT : GoType) (addr : Nat) (elem : Option Value)
  | viface (t : GoType) (elem : Option Value)
  | vchan (t : GoType) (addr : Nat)
  | vfunc (t : GoType) (addr : Nat)
  | vrawptr (t : GoType) (addr : Nat)
  | vcustom (t : GoType) (emit : String) (isZero : Bool)
  | vinvalid

/-- `reflect.Value.Type()` (an arbitrary placeholder for the invalid
value, whose `Type()` Go would refuse anyway). -/
def typeOfV : Value → GoType
  | .vbool t _ => t
  | .vint t _ => t
  | .vuint t _ => t
  | .vfloat t _ => t
  | .vstring t _ => t
  | .vmap t _ _ _ => t
  | .vstruct t _ => t
  | .vtime t _ _ _ _ _ _ _ _ => t
  | .vbigint t _ _ => t
  | .vbigfloat t _ _ => t
  | .varray t _ _ => t
  | .vslice t _ _ _ _ => t
  | .vptr t _ _ _ => t
  | .viface t _ => t
  | .vchan t _ => t
  | .vfunc t _ => t
  | .vrawptr t _ => t
  | .vcustom t _ _ => t
  | .vinvalid => ⟨.invalid, "<invalid>"⟩

/-- Field accessors for the struct-field quadruple. -/
def fName (f : String × String × Bool × Value) : String := f.1
def fTag (f : String × String × Bool × Value) : String := f.2.1
def fExp (f : String × String × Bool × Value) : Bool := f.2.2.1
def fVal (f : String × String × Bool × Value) : Value := f.2.2.2

/-- Bit width used by `reflect.Value.Uint()`, which widens to `uint64`. -/
def kindBits : GoKind → Nat
  | .uint8 => 8
  | .uint16 => 16
  | .uint32 => 32
  | _ => 64

/-- The numeric value `reflect.Value.Uint()` returns for an unsigned value
of kind `k` whose model payload is `n` (reduction mod 2^w makes the model
total; Go values are in range to begin with). -/
def uintVal (k : GoKind) (n : Nat) : Nat := n % 2 ^ kindBits k

/-- Bytewise (= code-point, on UTF-8) lexicographic string comparison,
Go's `<` on strings. -/
def strLtB : List Char → List Char → Bool
  | [], [] => false
  | [], _ :: _ => true
  | _ :: _, [] => false
  | a :: as, b :: bs => if a = b then strLtB as bs else decide (a < b)

/-- Go `a < b` on strings. -/
def goStrLt (a b : String) : Bool := strLtB a.toList b.toList

/-- `strings.Split(s, ",")` (always returns at least one piece). -/
def splitComma (acc : List Char) : List Char → List String
  | [] => [String.mk acc.reverse]
  | c :: cs =>
    if c = ',' then String.mk acc.reverse :: splitComma [] cs
    else splitComma (c :: acc) cs

/-- `sortedMap.Less` from the Ordering Module, transcribed from the
source: keys of distinct runtime types never compare; otherwise the
comparison dispatches on the kind.  The special-cased struct types and
`PrettyPrint`-capable values fall to the default arm, as the source's
`NumField`-comparison of two keys of one such type is likewise never
true. -/
def keyLess (a b : Value) : Bool :=
  if typeOfV a ≠ typeOfV b then false  -- give up
  else
    match a, b with
    | .vint _ x, .vint _ y => decide (x < y)
    | .vuint ⟨k, _⟩ x, .vuint _ y => decide (uintVal k x < uintVal k y)
    | .vstring _ x, .vstring _ y => goStrLt x y
    | .vfloat _ x, .vfloat _ y =>
      match x.val, y.val with
      | some p, some q => decide (p < q)
      | _, _ => false  -- NaN
    | .vbool _ x, .vbool _ y => !x && y
    | .vptr _ _ ax _, .vptr _ _ ay _ => decide (ax < ay)
    | .vstruct _ fa, .vstruct _ fb => decide (fa.length < fb.length)
    | .varray _ _ ea, .varray _ _ eb => decide (ea.length < eb.length)
    | _, _ => false  -- not supported

/-- The relation the stable sort places entries by: `x` may come before
`y` whenever `y`'s key is not strictly `Less` than `x`'s. -/
def entryRel (x y : Value × Value) : Prop := keyLess y.1 x.1 = false

instance : DecidableRel entryRel := fun x y => by unfold entryRel; infer_instance

/-- `sortMap`: the stable sort of the map's `(key, value)` entry list in
native iteration order.  Go's `sort.Stable` is modelled as stable
insertion sort: each element is placed before exactly those later
elements that are not strictly `Less` than it. -/
def sortEntries (l : List (Value × Value)) : List (Value × Value) :=
  List.insertionSort entryRel l

end GoPP

namespace GoPP

/-- The `NoColor` marker bit (`1 << 15`). -/
def NoColor : Nat := 32768

/-- Foreground colors (`iota | NoColor`). -/
def Black : Nat := NoColor + 1
def Red : Nat := NoColor + 2
def Green : Nat := NoColor + 3
def Yellow : Nat := NoColor + 4
def Blue : Nat := NoColor + 5
def Magenta : Nat := NoColor + 6
def Cyan : Nat := NoColor + 7
def White : Nat := NoColor + 8

/-- The `Bold` attribute (`1 << bitsBold | NoColor`); adding it to a plain
foreground color sets its (previously clear) bold bit, Go's `|`. -/
def BoldBit : Nat := 256

/-- A color scheme: one packed color word per semantic token category
(field names as in the source). -/
structure ColorScheme where
  Bool : Nat
  Integer : Nat
  Float : Nat
  String : Nat
  StringQuotation : Nat
  EscapedChar : Nat
  FieldName : Nat
  PointerAdress : Nat
  Nil : Nat
  Time : Nat
  StructName : Nat
  ObjectLength : Nat
deriving DecidableEq, Repr

/-- The package's `DefaultScheme`. -/
def DefaultScheme : ColorScheme where
  Bool := Cyan + BoldBit
  Integer := Blue + BoldBit
  Float := Magenta + BoldBit
  String := Red
  StringQuotation := Red + BoldBit
  EscapedChar := Magenta + BoldBit
  FieldName := Yellow
  PointerAdress := Blue + BoldBit
  Nil := Cyan + BoldBit
  Time := Blue + BoldBit
  StructName := Green
  ObjectLength := Blue

/-- Semantic token categories (`ColorField`). -/
inductive ColorField where
  | BoolColor | IntegerColor | FloatColor | StringColor
  | StringQuotationColor | EscapedCharColor | FieldNameColor
  | PointerAdressColor | NilColor | TimeColor | StructNameColor
  | ObjectLengthColor
deriving DecidableEq, Repr

/-- `ColorScheme.Get` (total here; the source panics only on enum values
outside the enumeration, which cannot arise). -/
def ColorScheme.Get (s : ColorScheme) : ColorField → Nat
  | .BoolColor => s.Bool
  | .IntegerColor => s.Integer
  | .FloatColor => s.Float
  | .StringColor => s.String
  | .StringQuotationColor => s.StringQuotation
  | .EscapedCharColor => s.EscapedChar
  | .FieldNameColor => s.FieldName
  | .PointerAdressColor => s.PointerAdress
  | .NilColor => s.Nil
  | .TimeColor => s.Time
  | .StructNameColor => s.StructName
  | .ObjectLengthColor => s.ObjectLength

/-- `ColorizeText`: wrap `text` in the ANSI escapes selected by the packed
color word; a word with clear color, background and bold fields leaves the
text unchanged. -/
def ColorizeText (text : String) (color : Nat) : String :=
  let foreground := color % 16            -- color & maskForeground
  let background := color / 16 % 16       -- (color & maskBackground) >> 4
  let bold := color / 256 % 2             -- color & maskBold
  if foreground = 0 ∧ background = 0 ∧ bold = 0 then text
  else
    (if foreground > 0 then "\x1b[" ++ toString (foreground + 29) ++ "m" else "") ++
      (if background > 0 then "\x1b[" ++ toString (background + 39) ++ "m" else "") ++
      (if bold > 0 then "\x1b[1m" else "") ++ text ++ "\x1b[0m"

/-- The options a `Printer` is constructed with (`NewPrinter`); a `none`
color scheme disables coloring (`IsColoringEnabled`). -/
structure Opts where
  colorScheme : Option ColorScheme
  decimalUint : Bool
  exportedOnly : Bool
  thousandsSeparator : Bool
deriving DecidableEq, Repr

/-- `Printer.Colorize`. -/
def Opts.colorize (o : Opts) (text : String) (f : ColorField) : String :=
  match o.colorScheme with
  | none => text
  | some s => ColorizeText text (s.Get f)

/-- Insert the English-locale thousands separators into a reversed digit
list (`k` digits already emitted). -/
def commasRev : List Char → Nat → List Char
  | [], _ => []
  | c :: cs, k =>
    if k ≠ 0 ∧ k % 3 = 0 then ',' :: c :: commasRev cs (k + 1)
    else c :: commasRev cs (k + 1)

/-- English-locale decimal rendering of a natural (`message.NewPrinter`). -/
def groupNat (n : Nat) : String :=
  String.mk ((commasRev (toString n).toList.reverse 0).reverse)

/-- `fmtOrLocalizedSprintf` on a natural number: localized decimal when
the thousands-separator option is on, plain decimal otherwise. -/
def locNat (o : Opts) (n : Nat) : String :=
  if o.thousandsSeparator then groupNat n else toString n

/-- `fmtOrLocalizedSprintf` on a signed integer. -/
def locInt (o : Opts) (i : Int) : String :=
  if i < 0 then
    (if o.thousandsSeparator then "-" ++ groupNat i.natAbs else toString i)
  else locNat o i.natAbs

/-- Fixed-width zero-padded lowercase hexadecimal (`%0Nx`; exact for
values below 16^w, which `uintVal` guarantees at the call sites). -/
def fixedHex (w n : Nat) : String :=
  String.mk ((List.range w).reverse.map fun i => Nat.digitChar (n / 16 ^ i % 16))

/-- Unpadded lowercase hexadecimal digits (`%x`). -/
def hexStr (n : Nat) : String := String.mk (Nat.toDigits 16 n)

/-- Fixed-width zero-padded decimal (`%0Nd` for in-range values). -/
def fixedDec (w n : Nat) : String :=
  String.mk ((List.range w).reverse.map fun i => Nat.digitChar (n / 10 ^ i % 10))

/-- `%f` (six fractional digits) of a float payload, localized when the
thousands-separator option is on. -/
def floatStr (o : Opts) (x : GoFloat) : String :=
  match x with
  | .nan => "NaN"
  | .negzero => "-" ++ locNat o 0 ++ "." ++ fixedDec 6 0
  | .fin q =>
    let m : Int := ⌊|q| * 1000000 + 1 / 2⌋
    (if q < 0 then "-" else "") ++ locNat o (m / 1000000).toNat ++ "." ++
      fixedDec 6 (m % 1000000).toNat

/-- One character of `strconv.Quote` output (ASCII-faithful; characters at
or above 0x80 are kept verbatim, see the header note). -/
def quoteChar (c : Char) : List Char :=
  if c = '"' then ['\\', '"']
  else if c = '\\' then ['\\', '\\']
  else if c = '\n' then ['\\', 'n']
  else if c = '\t' then ['\\', 't']
  else if c = '\r' then ['\\', 'r']
  else if c.val = 7 then ['\\', 'a']
  else if c.val = 8 then ['\\', 'b']
  else if c.val = 11 then ['\\', 'v']
  else if c.val = 12 then ['\\', 'f']
  else if c.val < 32 ∨ c.val = 127 then
    ['\\', 'x', Nat.digitChar (c.toNat / 16), Nat.digitChar (c.toNat % 16)]
  else [c]

/-- Length (beyond the backslash) of the escape sequence starting with
this character, as `printString` measures it. -/
def escLen (c : Char) : Nat :=
  if c = 'x' then 3
  else if c = 'u' then 5
  else if c = 'U' then 9
  else if c.isDigit then 3
  else 1

/-- The escape-recolorizing scan of `printString`: walk the quoted body,
coloring runs up to each backslash as string text and each escape
sequence separately.  Fuel bounds the walk (`length + 1` suffices since
every step consumes at least one character). -/
def escLoop (o : Opts) : Nat → List Char → String
  | 0, _ => ""
  | _, [] => ""
  | fuel + 1, cs =>
    let pre := cs.takeWhile (· ≠ '\\')
    let rest := cs.dropWhile (· ≠ '\\')
    match rest with
    | [] => o.colorize (String.mk pre) .StringColor
    | _ :: tl =>
      let n := match tl with | c :: _ => escLen c | [] => 1
      (if pre = [] then "" else o.colorize (String.mk pre) .StringColor) ++
        o.colorize (String.mk (rest.take (n + 1))) .EscapedCharColor ++
        escLoop o fuel (rest.drop (n + 1))

/-- `printString`: quote the string, then recolorize body and escapes. -/
def printStr (o : Opts) (s : String) : String :=
  let quoted := (s.toList.map quoteChar).flatten
  o.colorize "\"" .StringQuotationColor ++ escLoop o (quoted.length + 1) quoted ++
    o.colorize "\"" .StringQuotationColor

/-- `strings.Split` on a single-character separator. -/
def splitOnChar (sep : Char) (acc : List Char) : List Char → List String
  | [] => [String.mk acc.reverse]
  | c :: cs =>
    if c = sep then String.mk acc.reverse :: splitOnChar sep [] cs
    else splitOnChar sep (c :: acc) cs

/-- `colorizeType`: strip a `[]` or `[N]` prefix (the `[N]` step
overwrites a previously collected `[]` prefix, as the source does), then
color a one-dot `pkg.Name` tail or the whole remainder. -/
def colorizeType (o : Opts) (t : String) : String :=
  let cs0 := t.toList
  let (pre1, cs1) :=
    match cs0 with
    | '[' :: ']' :: c :: rest => ("[]", c :: rest)
    | _ => ("", cs0)
  let (pre2, cs2) :=
    match cs1 with
    | '[' :: rest =>
      match rest.takeWhile Char.isDigit, rest.dropWhile Char.isDigit with
      | ds@(_ :: _), ']' :: c :: r2 =>
        ("[" ++ o.colorize (String.mk ds) .ObjectLengthColor ++ "]", c :: r2)
      | _, _ => (pre1, cs1)
    | _ => (pre1, cs1)
  let t2 :=
    match splitOnChar '.' [] cs2 with
    | [a, b] =>
      if a ≠ "" ∧ b ≠ "" then a ++ "." ++ o.colorize b .StructNameColor
      else o.colorize (String.mk cs2) .StructNameColor
    | _ => o.colorize (String.mk cs2) .StructNameColor
  pre2 ++ t2

end GoPP

namespace GoPP

/-- `valueIsZero` (the vendored copy of `reflect.Value.IsZero`),
step-indexed; exhausted fuel answers `false`, the function's own default.
The float case is the `math.Float64bits(...) == 0` test, true exactly on
the positive zero (not on the negative zero or NaN).  For the
special-cased struct types (whose `Struct` kind recurses through the
underlying fields — true on the zero `time.Time`, `big.Int` and
`big.Float` values) and for `PrettyPrint`-capable values (whose
underlying kind decides — e.g. true on `BootIndex(0)` through the
`Uint16` case), the recursion's outcome is the carried `isZero`
attribute.  The invalid value answers `false`, the source's
non-panicking default arm. -/
def vZeroF : Nat → Value → Bool
  | 0, _ => false
  | n + 1, v =>
    match v with
    | .vbool _ b => !b
    | .vint _ i => decide (i = 0)
    | .vuint ⟨k, _⟩ m => decide (uintVal k m = 0)
    | .vfloat _ x => decide (x = .fin 0)  -- math.Float64bits(...) == 0
    | .vstring _ s => decide (s.length = 0)
    | .varray _ _ es => es.all fun e => vZeroF n e
    | .vstruct _ fs => fs.all fun f => vZeroF n (fVal f)
    | .vtime _ _ _ _ _ _ _ _ z => z
    | .vbigint _ _ z => z
    | .vbigfloat _ _ z => z
    | .vcustom _ _ z => z
    | .vmap _ _ isNil _ => isNil
    | .vslice _ _ _ isNil _ => isNil
    | .vptr _ _ addr _ => decide (addr = 0)
    | .viface _ e => e.isNone
    | .vchan _ a => decide (a = 0)
    | .vfunc _ a => decide (a = 0)
    | .vrawptr _ a => decide (a = 0)
    | .vinvalid => false

/-- The field filter of `printStruct`'s first loop: drop unexported fields
under the exported-only option; for a non-empty `pp` tag, drop a
two-part `…,omitempty` tag on a zero value, and drop a `-` first part. -/
def keepField (o : Opts) (isZ : Value → Bool) (f : String × String × Bool × Value) : Bool :=
  if o.exportedOnly && !(fExp f) then false
  else if fTag f ≠ "" then
    if (match splitOnChar ',' [] (fTag f).toList with
        | [_, p1] => p1 == "omitempty" && isZ (fVal f)
        | _ => false) then false
    else if (match splitOnChar ',' [] (fTag f).toList with
        | p0 :: _ => p0 == "-"
        | [] => false) then false
    else true
  else true

/-- The display name of a kept field (`tagName[0]` when non-empty). -/
def displayName (f : String × String × Bool × Value) : String :=
  if fTag f ≠ "" then
    match splitOnChar ',' [] (fTag f).toList with
    | p0 :: _ => if p0 ≠ "" then p0 else fName f
    | [] => fName f
  else fName f

/-- `Printer.Indent`: one tab per nesting level. -/
def indentT : Nat → String
  | 0 => ""
  | n + 1 => indentT n ++ "\t"

/-- Result of one rendering call: the emitted text with the updated
visited set, a Go runtime panic, or fuel exhaustion. -/
inductive FRes where
  | ok (text : String) (vis : List Nat)
  | crashed
  | nofuel
deriving DecidableEq, Repr

/-- One `key:\tvalue,\n` line of `printMap`'s entry loop. -/
def entryStep (fmt : Value → List Nat → FRes) (ind : String) (acc : FRes)
    (e : Value × Value) : FRes :=
  match acc with
  | .ok s vis =>
    match fmt e.1 vis with
    | .ok ks vis₁ =>
      match fmt e.2 vis₁ with
      | .ok vs vis₂ => .ok (s ++ ind ++ ks ++ ":\t" ++ vs ++ ",\n") vis₂
      | .crashed => .crashed
      | .nofuel => .nofuel
    | .crashed => .crashed
    | .nofuel => .nofuel
  | .crashed => .crashed
  | .nofuel => .nofuel

/-- One `name:\tvalue,\n` line of `printStruct`'s second loop; the field
value is read-only below an unexported field. -/
def fieldStep (o : Opts) (fmt : Bool → Value → List Nat → FRes) (ind : String)
    (acc : FRes) (f : String × String × Bool × Value) : FRes :=
  match acc with
  | .ok s vis =>
    match fmt (!(fExp f)) (fVal f) vis with
    | .ok vs vis₁ =>
      .ok (s ++ ind ++ o.colorize (displayName f) .FieldNameColor ++ ":\t" ++ vs ++ ",\n") vis₁
    | .crashed => .crashed
    | .nofuel => .nofuel
  | .crashed => .crashed
  | .nofuel => .nofuel

/-- One `, element` of `printSlice`'s single-line branch. -/
def inlineStep (fmt : Value → List Nat → FRes) (acc : FRes) (e : Value) : FRes :=
  match acc with
  | .ok s vis =>
    match fmt e vis with
    | .ok es vis₁ => .ok (s ++ ", " ++ es) vis₁
    | .crashed => .crashed
    | .nofuel => .nofuel
  | .crashed => .crashed
  | .nofuel => .nofuel

/-- One element of `printSlice`'s grouped multi-line branch: indent at a
group start, then `element,` and a newline at a group end or the final
element, otherwise a single space. -/
def groupStep (fmt : Value → List Nat → FRes) (ind : String) (g len : Nat)
    (acc : FRes) (ie : Nat × Value) : FRes :=
  match acc with
  | .ok s vis =>
    match fmt ie.2 vis with
    | .ok es vis₁ =>
      .ok (s ++ (if ie.1 % g = 0 then ind else "") ++ es ++ "," ++
        (if (ie.1 + 1) % g = 0 ∨ ie.1 + 1 = len then "\n" else " ")) vis₁
    | .crashed => .crashed
    | .nofuel => .nofuel
  | .crashed => .crashed
  | .nofuel => .nofuel

/-- One `element,\n` line of the ungrouped multi-line branch. -/
def nogroupStep (fmt : Value → List Nat → FRes) (ind : String) (acc : FRes)
    (e : Value) : FRes :=
  match acc with
  | .ok s vis =>
    match fmt e vis with
    | .ok es vis₁ => .ok (s ++ ind ++ es ++ ",\n") vis₁
    | .crashed => .crashed
    | .nofuel => .nofuel
  | .crashed => .crashed
  | .nofuel => .nofuel

/-- `stringGroupSize`: the length in bytes of the longest string of the
asserted `[]string`. -/
def stringMaxLen (elems : List Value) : Nat :=
  elems.foldl (fun m e => match e with | .vstring _ s => max m s.utf8ByteSize | _ => m) 0

/-- The group-size selection of `printSlice`, dispatching on the element
kind.  `none` is a panic: for string elements the source asserts the
dynamic type `[]string` (any other type panics) and then divides 36 by
the longest length, which panics when that length is zero. -/
def sliceGroupSize (tname : String) (ek : GoKind) (elems : List Value) : Option Nat :=
  match ek with
  | .uint8 => some 16
  | .uint16 => some 8
  | .uint32 => some 8
  | .uint64 => some 4
  | .string =>
    if tname = "[]string" then
      let m := stringMaxLen elems
      if m = 0 then none else some (36 / m)
    else none
  | _ => some 0

/-- The shared tail of `printSlice` for a non-empty, unvisited sequence:
the 1024-element cap, group-size selection, and the single-line, grouped
or ungrouped rendering (`fmt` takes the depth of the nested call). -/
def sliceBody (o : Opts) (fmt : Nat → Value → List Nat → FRes) (t elemT : GoType)
    (elems : List Value) (d : Nat) (vis : List Nat) : FRes :=
  if elems.length > 1024 then .ok (colorizeType o t.name ++ "\x7b...\x7d") vis
  else
    match sliceGroupSize t.name elemT.kind elems with
    | none => .crashed
    | some g =>
      if elems.length < g then
        match elems with
        | [] => .ok "\x7b\x7d" vis  -- unreachable: the callers handle empty
        | e :: rest =>
          match fmt d e vis with
          | .ok s0 vis₀ =>
            match rest.foldl (inlineStep (fmt d)) (.ok ("\x7b" ++ s0) vis₀) with
            | .ok s vis₁ => .ok (s ++ "\x7d") vis₁
            | .crashed => .crashed
            | .nofuel => .nofuel
          | .crashed => .crashed
          | .nofuel => .nofuel
      else if g > 0 then
        match elems.enum.foldl (groupStep (fmt (d + 1)) (indentT (d + 1)) g elems.length)
            (.ok "\x7b\n" vis) with
        | .ok s vis₁ => .ok (s ++ indentT d ++ "\x7d") vis₁
        | .crashed => .crashed
        | .nofuel => .nofuel
      else
        match elems.foldl (nogroupStep (fmt (d + 1)) (indentT (d + 1))) (.ok "\x7b\n" vis) with
        | .ok s vis₁ => .ok (s ++ indentT d ++ "\x7d") vis₁
        | .crashed => .crashed
        | .nofuel => .nofuel

/-- The recursive renderer: `Printer.Format`'s dispatch together with the
shape-specific routines it reaches, as one step-indexed function.
`ro` models the reflect read-only flag (set below an unexported field):
`Format` begins by calling `pp.value.Interface()` for the `PrettyPrint`
capability check, which panics on a read-only or invalid value before any
dispatch.  The result text is what the call writes to its sub-printer
(returned by `pp.String()`); `vis` is the shared visited set. -/
def fmtFuel (o : Opts) : Nat → Bool → Nat → List Nat → Value → FRes
  | 0, _, _, _, _ => .nofuel
  | n + 1, ro, d, vis, v =>
    if ro then .crashed
    else
      match v with
      | .vinvalid => .crashed
      | .vcustom _ emit _ => .ok emit vis
      | .vbool _ b => .ok (o.colorize (if b then "true" else "false") .BoolColor) vis
      | .vint _ i => .ok (o.colorize (locInt o i) .IntegerColor) vis
      | .vuint ⟨k, _⟩ m =>
        let u := uintVal k m
        let txt :=
          match k with
          | .uint8 => if o.decimalUint then toString u else "0x" ++ fixedHex 2 u
          | .uint16 => if o.decimalUint then locNat o u else "0x" ++ fixedHex 4 u
          | .uint32 => if o.decimalUint then locNat o u else "0x" ++ fixedHex 8 u
          | .uint64 => if o.decimalUint then locNat o u else "0x" ++ fixedHex 16 u
          | _ => if o.decimalUint then locNat o u else "0x" ++ hexStr u
        .ok (o.colorize txt .IntegerColor) vis
      | .vfloat _ x => .ok (o.colorize (floatStr o x) .FloatColor) vis
      | .vstring _ s => .ok (printStr o s) vis
      | .vmap t addr _ entries =>
        if entries.length = 0 then .ok (colorizeType o t.name ++ "\x7b\x7d") vis
        else if addr ∈ vis then .ok (colorizeType o t.name ++ "\x7b...\x7d") vis
        else
          match (sortEntries entries).foldl
              (entryStep (fun v' w => fmtFuel o n false (d + 1) w v') (indentT (d + 1)))
              (.ok (colorizeType o t.name ++ "\x7b\n") (addr :: vis)) with
          | .ok s vis₁ => .ok (s ++ indentT d ++ "\x7d") vis₁
          | .crashed => .crashed
          | .nofuel => .nofuel
      | .vstruct t fields =>
        let kept := fields.filter (keepField o (vZeroF n))
        if kept.length = 0 then .ok (colorizeType o t.name ++ "\x7b\x7d") vis
        else
          match kept.foldl
              (fieldStep o (fun ro' v' w => fmtFuel o n ro' (d + 1) w v') (indentT (d + 1)))
              (.ok (colorizeType o t.name ++ "\x7b\n") vis) with
          | .ok s vis₁ => .ok (s ++ indentT d ++ "\x7d") vis₁
          | .crashed => .crashed
          | .nofuel => .nofuel
      | .vtime _ y mo dd hh mi ss zone _ =>
        .ok (o.colorize (toString y) .TimeColor ++ "-" ++
          o.colorize (fixedDec 2 mo) .TimeColor ++ "-" ++
          o.colorize (fixedDec 2 dd) .TimeColor ++ " " ++
          o.colorize (fixedDec 2 hh) .TimeColor ++ ":" ++
          o.colorize (fixedDec 2 mi) .TimeColor ++ ":" ++
          o.colorize (fixedDec 2 ss) .TimeColor ++ " " ++
          o.colorize zone .TimeColor) vis
      | .vbigint _ i _ => .ok (o.colorize (toString i) .IntegerColor) vis
      | .vbigfloat _ str _ => .ok (o.colorize str .FloatColor) vis
      | .varray t et elems =>
        if elems.length = 0 then .ok (colorizeType o t.name ++ "\x7b\x7d") vis
        else sliceBody o (fun d' v' w => fmtFuel o n false d' w v') t et elems d vis
      | .vslice t et addr isNil elems =>
        if isNil then
          .ok (colorizeType o t.name ++ "(" ++ o.colorize "nil" .NilColor ++ ")") vis
        else if elems.length = 0 then .ok (colorizeType o t.name ++ "\x7b\x7d") vis
        else if addr ∈ vis then .ok (colorizeType o t.name ++ "\x7b...\x7d") vis
        else sliceBody o (fun d' v' w => fmtFuel o n false d' w v') t et elems d (addr :: vis)
      | .vptr t et addr elem =>
        if addr ∈ vis then .ok ("&" ++ colorizeType o et.name ++ "\x7b...\x7d") vis
        else
          let vis₁ := if addr ≠ 0 then addr :: vis else vis
          match elem with
          | some e =>
            match fmtFuel o n false d vis₁ e with
            | .ok s vis₂ => .ok ("&" ++ s) vis₂
            | .crashed => .crashed
            | .nofuel => .nofuel
          | none =>
            .ok ("(" ++ colorizeType o t.name ++ ")(" ++ o.colorize "nil" .NilColor ++ ")") vis₁
      | .viface _ elem =>
        match elem with
        | none => .ok (o.colorize "nil" .NilColor) vis
        | some e => fmtFuel o n false d vis e
      | .vchan t addr =>
        .ok ("(" ++ colorizeType o t.name ++ ")(" ++
          o.colorize ("0x" ++ hexStr addr) .PointerAdressColor ++ ")") vis
      | .vfunc t _ => .ok (colorizeType o t.name ++ " \x7b...\x7d") vis
      | .vrawptr t addr =>
        .ok (colorizeType o t.name ++ "(" ++
          o.colorize ("0x" ++ hexStr addr) .PointerAdressColor ++ ")") vis

end GoPP

namespace GoPP

/-- The Ordering Module's comparison as §4.2 of the specification words
it, clause by clause: different runtime types are tied; signed integers,
unsigned/pointer-sized integers, strings and floats compare
numerically/lexicographically except that a float comparison with a NaN
operand is tied; booleans order false before true; pointers compare by
underlying address; fixed-size arrays by element count only; structs by
declared field count only; every other shared shape is tied. -/
def specKeyLess (a b : Value) : Bool :=
  if typeOfV a ≠ typeOfV b then false
  else
    match a, b with
    | .vint _ x, .vint _ y => decide (x < y)
    | .vuint ⟨k, _⟩ x, .vuint _ y => decide (uintVal k x < uintVal k y)
    | .vstring _ x, .vstring _ y => goStrLt x y
    | .vfloat _ x, .vfloat _ y =>
      if x = GoFloat.nan ∨ y = GoFloat.nan then false
      else
        match x.val, y.val with
        | some p, some q => decide (p < q)
        | _, _ => false
    | .vbool _ x, .vbool _ y => decide (x = false ∧ y = true)
    | .vptr _ _ ax _, .vptr _ _ ay _ => decide (ax < ay)
    | .varray _ _ ea, .varray _ _ eb => decide (ea.length < eb.length)
    | .vstruct _ fa, .vstruct _ fb => decide (fa.length < fb.length)
    | _, _ => false

/-- The string payload of an entry's key (junk `""` off the string-keyed
domain). -/
def keyStrOf (p : Value × Value) : String :=
  match p.1 with
  | .vstring _ s => s
  | _ => ""

/-- The `Printer` state a `Format` call can see: the accumulated buffered
output (buffer plus pending tab-writer content), the current depth, and
the shared visited set.  The bound options are passed separately, as they
are immutable. -/
structure PState where
  out : String
  depth : Nat
  vis : List Nat
deriving DecidableEq, Repr

/-- `Printer.String()`: flush and return the buffered output. -/
def PString (p : PState) : String := p.out

/-- `Printer.Format(object)`: build a sub-printer with a fresh buffer,
the parent's depth and options and the shared visited set, render into
it, and return its accumulated text; the parent keeps its buffer and
depth, and sees the visited set's growth.  A crashed or fuel-exhausted
render returns the state unchanged (a Go panic tears the process down,
so no state is observable there; no theorem relies on that branch). -/
def formatCall (o : Opts) (fuel : Nat) (p : PState) (v : Value) : String × PState :=
  match fmtFuel o fuel false p.depth p.vis v with
  | .ok s vis' => (s, { p with vis := vis' })
  | _ => ("", p)

end GoPP

namespace GoPP

theorem strLtB_irrefl : ∀ cs, strLtB cs cs = false
  | [] => rfl
  | c :: cs => by simp [strLtB, strLtB_irrefl cs]

theorem strLtB_asymm : ∀ a b, strLtB a b = true → strLtB b a = false
  | [], [], h => by simp [strLtB] at h
  | [], _ :: _, _ => rfl
  | _ :: _, [], h => by simp [strLtB] at h
  | x :: xs, y :: ys, h => by
    by_cases hxy : x = y
    · subst hxy
      simp only [strLtB, if_pos rfl] at h ⊢
      exact strLtB_asymm xs ys h
    · have hyx : ¬ y = x := fun e => hxy e.symm
      simp only [strLtB, if_neg hxy, decide_eq_true_eq] at h
      simp only [strLtB, if_neg hyx, decide_eq_false_iff_not]
      exact fun hlt => absurd h (not_lt_of_gt hlt)

theorem strLtB_trans : ∀ a b c, strLtB a b = true → strLtB b c = true → strLtB a c = true
  | [], [], _, h, _ => by simp [strLtB] at h
  | [], _ :: _, [], _, h => by simp [strLtB] at h
  | [], _ :: _, _ :: _, _, _ => rfl
  | _ :: _, [], _, h, _ => by simp [strLtB] at h
  | _ :: _, _ :: _, [], _, h => by simp [strLtB] at h
  | x :: xs, y :: ys, z :: zs, h₁, h₂ => by
    by_cases hxy : x = y <;> by_cases hyz : y = z
    · subst hxy; subst hyz
      simp only [strLtB, if_pos rfl] at h₁ h₂ ⊢
      exact strLtB_trans xs ys zs h₁ h₂
    · subst hxy
      simpa [strLtB, hyz] using h₂
    · subst hyz
      simpa [strLtB, hxy] using h₁
    · simp only [strLtB, if_neg hxy, decide_eq_true_eq] at h₁
      simp only [strLtB, if_neg hyz, decide_eq_true_eq] at h₂
      have hxz : x < z := lt_trans h₁ h₂
      simp [strLtB, ne_of_lt hxz, hxz]

theorem strLtB_total_ne : ∀ a b, a ≠ b → strLtB a b = true ∨ strLtB b a = true
  | [], [], h => absurd rfl h
  | [], _ :: _, _ => Or.inl rfl
  | _ :: _, [], _ => Or.inr rfl
  | x :: xs, y :: ys, h => by
    by_cases hxy : x = y
    · subst hxy
      have : xs ≠ ys := fun e => h (by rw [e])
      rcases strLtB_total_ne xs ys this with h' | h'
      · exact Or.inl (by simpa [strLtB] using h')
      · exact Or.inr (by simpa [strLtB] using h')
    · have hyx : ¬ y = x := fun e => hxy e.symm
      rcases lt_or_gt_of_ne (show x ≠ y from hxy) with hlt | hlt
      · exact Or.inl (by simp [strLtB, hxy, hlt])
      · exact Or.inr (by simp [strLtB, hyx, hlt])

theorem goStrLt_asymm {a b : String} (h : goStrLt a b = true) : goStrLt b a = false :=
  strLtB_asymm _ _ h

theorem goStrLt_trans {a b c : String} (h₁ : goStrLt a b = true) (h₂ : goStrLt b c = true) :
    goStrLt a c = true :=
  strLtB_trans _ _ _ h₁ h₂

theorem goStrLt_total_ne {a b : String} (h : a ≠ b) :
    goStrLt a b = true ∨ goStrLt b a = true :=
  strLtB_total_ne _ _ fun e => h (by
    have := congrArg (fun l => String.mk l) e
    simpa using this)

theorem keyLess_string (st : GoType) (s₁ s₂ : String) :
    keyLess (.vstring st s₁) (.vstring st s₂) = goStrLt s₁ s₂ := by
  simp [keyLess, typeOfV]

end GoPP

namespace GoPP

theorem orderedInsert_pairwise_local {α : Type} {R : α → α → Prop} [DecidableRel R]
    {P : α → Prop}
    (total : ∀ x y, P x → P y → R x y ∨ R y x)
    (trans : ∀ x y z, P x → P y → P z → R x y → R y z → R x z) :
    ∀ (l : List α) (a : α), P a → (∀ x ∈ l, P x) → l.Pairwise R →
      (l.orderedInsert R a).Pairwise R
  | [], a, _, _, _ => List.pairwise_singleton R a
  | b :: bs, a, hPa, hPl, hpw => by
    have hPb : P b := hPl b (List.mem_cons_self b bs)
    have hPbs : ∀ x ∈ bs, P x := fun x hx => hPl x (List.mem_cons_of_mem b hx)
    rw [List.orderedInsert]
    rcases List.pairwise_cons.mp hpw with ⟨hb, hbs⟩
    by_cases h : R a b
    · rw [if_pos h]
      refine List.pairwise_cons.mpr ⟨?_, hpw⟩
      intro x hx
      rcases List.mem_cons.mp hx with rfl | hx
      · exact h
      · exact trans a b x hPa hPb (hPbs x hx) h (hb x hx)
    · rw [if_neg h]
      refine List.pairwise_cons.mpr ⟨?_, ?_⟩
      · intro x hx
        rcases (List.mem_orderedInsert R).mp hx with he | hx
        · rw [he]; exact (total a b hPa hPb).resolve_left h
        · exact hb x hx
      · exact orderedInsert_pairwise_local total trans bs a hPa hPbs hbs

theorem insertionSort_pairwise_local {α : Type} {R : α → α → Prop} [DecidableRel R]
    {P : α → Prop}
    (total : ∀ x y, P x → P y → R x y ∨ R y x)
    (trans : ∀ x y z, P x → P y → P z → R x y → R y z → R x z) :
    ∀ l : List α, (∀ x ∈ l, P x) → (l.insertionSort R).Pairwise R
  | [], _ => List.Pairwise.nil
  | a :: l, hP => by
    rw [List.insertionSort]
    refine orderedInsert_pairwise_local total trans _ a (hP a (List.mem_cons_self a l))
      (fun x hx => hP x (List.mem_cons_of_mem a ((List.mem_insertionSort R).mp hx)))
      (insertionSort_pairwise_local total trans l
        (fun x hx => hP x (List.mem_cons_of_mem a hx)))

theorem eq_of_perm_of_pairwise_asymm {α : Type} {R : α → α → Prop}
    (asym : ∀ a b, R a b → R b a → False) :
    ∀ l₁ l₂ : List α, l₁.Perm l₂ → l₁.Pairwise R → l₂.Pairwise R → l₁ = l₂
  | [], l₂, h, _, _ => h.nil_eq
  | x :: xs, [], h, _, _ => absurd h (by simp)
  | x :: xs, y :: ys, h, h₁, h₂ => by
    rcases List.pairwise_cons.mp h₁ with ⟨hx, hxs⟩
    rcases List.pairwise_cons.mp h₂ with ⟨hy, hys⟩
    by_cases hxy : x = y
    · subst hxy
      have := eq_of_perm_of_pairwise_asymm asym xs ys h.cons_inv hxs hys
      rw [this]
    · have hxl₂ : x ∈ y :: ys := h.mem_iff.mp (List.mem_cons_self x xs)
      have hxys : x ∈ ys := by
        rcases List.mem_cons.mp hxl₂ with rfl | hm
        · exact absurd rfl hxy
        · exact hm
      have hyl₁ : y ∈ x :: xs := h.mem_iff.mpr (List.mem_cons_self y ys)
      have hyxs : y ∈ xs := by
        rcases List.mem_cons.mp hyl₁ with he | hm
        · exact absurd he.symm hxy
        · exact hm
      exact absurd (hy x hxys) (fun h' => asym x y (hx y hyxs) h')

/-- Strict string order on entries through the key payload. -/
def entrySLt (x y : Value × Value) : Prop := goStrLt (keyStrOf x) (keyStrOf y) = true

theorem entrySLt_asymm : ∀ a b, entrySLt a b → entrySLt b a → False := by
  intro a b h₁ h₂
  have := goStrLt_asymm h₁
  rw [h₂] at this
  cases this

/-- On entries whose keys are strings of one runtime type, the handed
relation is total... -/
theorem entryRel_total_str {st : GoType}
    {x y : Value × Value} (hx : ∃ s, x.1 = Value.vstring st s)
    (hy : ∃ s, y.1 = Value.vstring st s) : entryRel x y ∨ entryRel y x := by
  rcases hx with ⟨sx, hx⟩
  rcases hy with ⟨sy, hy⟩
  unfold entryRel
  rw [hx, hy, keyLess_string, keyLess_string]
  by_cases h : goStrLt sy sx = true
  · exact Or.inr (goStrLt_asymm h)
  · exact Or.inl (by simpa using h)

/-- ... and transitive. -/
theorem entryRel_trans_str {st : GoType}
    {x y z : Value × Value} (hx : ∃ s, x.1 = Value.vstring st s)
    (hy : ∃ s, y.1 = Value.vstring st s) (hz : ∃ s, z.1 = Value.vstring st s) :
    entryRel x y → entryRel y z → entryRel x z := by
  rcases hx with ⟨sx, hx⟩
  rcases hy with ⟨sy, hy⟩
  rcases hz with ⟨sz, hz⟩
  unfold entryRel
  rw [hx, hy, keyLess_string, hz, keyLess_string, keyLess_string]
  intro h₁ h₂
  by_cases h : goStrLt sz sx = true
  · exfalso
    by_cases e₁ : sy = sx
    · subst e₁; rw [h] at h₂; cases h₂
    · rcases goStrLt_total_ne e₁ with hlt | hlt
      · rw [hlt] at h₁; cases h₁
      · rw [goStrLt_trans h hlt] at h₂; cases h₂
  · simpa using h

end GoPP

namespace GoPP

theorem keyStrOf_eq {st : GoType} {p : Value × Value} {s : String}
    (h : p.1 = Value.vstring st s) : keyStrOf p = s := by
  unfold keyStrOf
  rw [h]

/-- Determinism of the Ordering Module on maps whose keys are distinct
strings of one runtime type: any two native iteration orders sort to the
same entry list. -/
theorem sortEntries_det {st : GoType} {e₁ e₂ : List (Value × Value)}
    (hstr : ∀ p ∈ e₁, ∃ s, p.1 = Value.vstring st s)
    (hnd : (e₁.map Prod.fst).Nodup)
    (hp : e₁.Perm e₂) :
    sortEntries e₁ = sortEntries e₂ := by
  have hstr₂ : ∀ p ∈ e₂, ∃ s, p.1 = Value.vstring st s :=
    fun p h => hstr p (hp.mem_iff.mpr h)
  have hnd₂ : (e₂.map Prod.fst).Nodup := ((hp.map Prod.fst).nodup_iff).mp hnd
  have pw₁ : (sortEntries e₁).Pairwise entryRel :=
    insertionSort_pairwise_local (R := entryRel)
      (P := fun p => ∃ s, p.1 = Value.vstring st s)
      (fun _ _ hx hy => entryRel_total_str hx hy)
      (fun _ _ _ hx hy hz => entryRel_trans_str hx hy hz) e₁ hstr
  have pw₂ : (sortEntries e₂).Pairwise entryRel :=
    insertionSort_pairwise_local (R := entryRel)
      (P := fun p => ∃ s, p.1 = Value.vstring st s)
      (fun _ _ hx hy => entryRel_total_str hx hy)
      (fun _ _ _ hx hy hz => entryRel_trans_str hx hy hz) e₂ hstr₂
  have q₁ : (sortEntries e₁).Perm e₁ := List.perm_insertionSort _ e₁
  have q₂ : (sortEntries e₂).Perm e₂ := List.perm_insertionSort _ e₂
  have strict : ∀ (e : List (Value × Value)),
      (∀ p ∈ e, ∃ s, p.1 = Value.vstring st s) → ((e.map Prod.fst).Nodup) →
      (sortEntries e).Pairwise entryRel → (sortEntries e).Perm e →
      (sortEntries e).Pairwise entrySLt := by
    intro e he hnde pw q
    have mem' : ∀ p ∈ sortEntries e, ∃ s, p.1 = Value.vstring st s :=
      fun p h => he p (q.mem_iff.mp h)
    have nd' : ((sortEntries e).map Prod.fst).Nodup := ((q.map Prod.fst).nodup_iff).mpr hnde
    have pne : (sortEntries e).Pairwise fun x y => x.1 ≠ y.1 := by
      have := List.pairwise_map.mp nd'
      exact this
    refine ((pw.and pne).imp_of_mem ?_)
    intro a b ha hb hab
    rcases mem' a ha with ⟨sa, hsa⟩
    rcases mem' b hb with ⟨sb, hsb⟩
    rcases hab with ⟨hr, hne⟩
    have hsne : sa ≠ sb := by
      intro e'
      apply hne
      rw [hsa, hsb, e']
    have hr' : goStrLt sb sa = false := by
      have := hr
      unfold entryRel at this
      rwa [hsa, hsb, keyLess_string] at this
    unfold entrySLt
    rw [keyStrOf_eq hsa, keyStrOf_eq hsb]
    rcases goStrLt_total_ne hsne with h' | h'
    · exact h'
    · rw [h'] at hr'; cases hr'
  exact eq_of_perm_of_pairwise_asymm entrySLt_asymm _ _
    (q₁.trans (hp.trans q₂.symm)) (strict e₁ hstr hnd pw₁ q₁) (strict e₂ hstr₂ hnd₂ pw₂ q₂)

end GoPP

namespace GoPP

theorem foldl_ok_sub {β : Type}
    {step : FRes → β → FRes}
    (hstep : ∀ acc b s' vis', step acc b = .ok s' vis' →
      ∃ s₀ vis₀, acc = .ok s₀ vis₀ ∧ vis₀ ⊆ vis') :
    ∀ (l : List β) (acc : FRes) (s' : String) (vis' : List Nat),
      l.foldl step acc = .ok s' vis' →
      ∃ s₀ vis₀, acc = .ok s₀ vis₀ ∧ vis₀ ⊆ vis'
  | [], _, s', vis', h => ⟨s', vis', h, fun _ ha => ha⟩
  | b :: l, acc, s', vis', h => by
    rcases foldl_ok_sub hstep l (step acc b) s' vis' h with ⟨s₁, vis₁, h₁, hsub₁⟩
    rcases hstep acc b s₁ vis₁ h₁ with ⟨s₀, vis₀, h₀, hsub₀⟩
    exact ⟨s₀, vis₀, h₀, hsub₀.trans hsub₁⟩

theorem entryStep_sub {fmt : Value → List Nat → FRes} {ind : String}
    (hf : ∀ v w s u, fmt v w = .ok s u → w ⊆ u) :
    ∀ acc e s' vis', entryStep fmt ind acc e = .ok s' vis' →
      ∃ s₀ vis₀, acc = .ok s₀ vis₀ ∧ vis₀ ⊆ vis' := by
  intro acc e s' vis' h
  unfold entryStep at h
  split at h
  · rename_i s vis
    split at h
    · rename_i ks vis₁ hk
      split at h
      · rename_i vs vis₂ hv
        cases h
        exact ⟨s, vis, rfl, (hf _ _ _ _ hk).trans (hf _ _ _ _ hv)⟩
      · cases h
      · cases h
    · cases h
    · cases h
  · cases h
  · cases h

theorem fieldStep_sub {o : Opts} {fmt : Bool → Value → List Nat → FRes} {ind : String}
    (hf : ∀ ro v w s u, fmt ro v w = .ok s u → w ⊆ u) :
    ∀ acc f s' vis', fieldStep o fmt ind acc f = .ok s' vis' →
      ∃ s₀ vis₀, acc = .ok s₀ vis₀ ∧ vis₀ ⊆ vis' := by
  intro acc f s' vis' h
  unfold fieldStep at h
  split at h
  · rename_i s vis
    split at h
    · rename_i vs vis₁ hv
      cases h
      exact ⟨s, vis, rfl, hf _ _ _ _ _ hv⟩
    · cases h
    · cases h
  · cases h
  · cases h

theorem inlineStep_sub {fmt : Value → List Nat → FRes}
    (hf : ∀ v w s u, fmt v w = .ok s u → w ⊆ u) :
    ∀ acc e s' vis', inlineStep fmt acc e = .ok s' vis' →
      ∃ s₀ vis₀, acc = .ok s₀ vis₀ ∧ vis₀ ⊆ vis' := by
  intro acc e s' vis' h
  unfold inlineStep at h
  split at h
  · rename_i s vis
    split at h
    · rename_i es vis₁ hv
      cases h
      exact ⟨s, vis, rfl, hf _ _ _ _ hv⟩
    · cases h
    · cases h
  · cases h
  · cases h

theorem groupStep_sub {fmt : Value → List Nat → FRes} {ind : String} {g len : Nat}
    (hf : ∀ v w s u, fmt v w = .ok s u → w ⊆ u) :
    ∀ acc ie s' vis', groupStep fmt ind g len acc ie = .ok s' vis' →
      ∃ s₀ vis₀, acc = .ok s₀ vis₀ ∧ vis₀ ⊆ vis' := by
  intro acc ie s' vis' h
  unfold groupStep at h
  split at h
  · rename_i s vis
    split at h
    · rename_i es vis₁ hv
      cases h
      exact ⟨s, vis, rfl, hf _ _ _ _ hv⟩
    · cases h
    · cases h
  · cases h
  · cases h

theorem nogroupStep_sub {fmt : Value → List Nat → FRes} {ind : String}
    (hf : ∀ v w s u, fmt v w = .ok s u → w ⊆ u) :
    ∀ acc e s' vis', nogroupStep fmt ind acc e = .ok s' vis' →
      ∃ s₀ vis₀, acc = .ok s₀ vis₀ ∧ vis₀ ⊆ vis' := by
  intro acc e s' vis' h
  unfold nogroupStep at h
  split at h
  · rename_i s vis
    split at h
    · rename_i es vis₁ hv
      cases h
      exact ⟨s, vis, rfl, hf _ _ _ _ hv⟩
    · cases h
    · cases h
  · cases h
  · cases h

theorem sliceBody_sub {o : Opts} {fmt : Nat → Value → List Nat → FRes}
    {t et : GoType} {elems : List Value} {d : Nat} {vis : List Nat}
    {s' : String} {vis' : List Nat}
    (hf : ∀ d' v w s u, fmt d' v w = .ok s u → w ⊆ u) :
    sliceBody o fmt t et elems d vis = .ok s' vis' → vis ⊆ vis' := by
  intro h
  unfold sliceBody at h
  split at h
  · cases h; exact fun _ ha => ha
  · split at h
    · cases h
    · split at h
      · split at h
        · cases h; exact fun _ ha => ha
        · rename_i e rest hcap hgs hlen
          split at h
          · rename_i s0 vis₀ h0
            split at h
            · rename_i s1 vis₁ hfold
              cases h
              rcases foldl_ok_sub (inlineStep_sub (hf d)) rest _ _ _ hfold
                with ⟨s₂, vis₂, hacc, hsub⟩
              cases hacc
              exact (hf _ _ _ _ _ h0).trans hsub
            · cases h
            · cases h
          · cases h
          · cases h
      · split at h
        · split at h
          · rename_i s1 vis₁ hfold
            cases h
            rcases foldl_ok_sub (groupStep_sub (hf (d + 1))) _ _ _ _ hfold
              with ⟨s₂, vis₂, hacc, hsub⟩
            cases hacc
            exact hsub
          · cases h
          · cases h
        · split at h
          · rename_i s1 vis₁ hfold
            cases h
            rcases foldl_ok_sub (nogroupStep_sub (hf (d + 1))) _ _ _ _ hfold
              with ⟨s₂, vis₂, hacc, hsub⟩
            cases hacc
            exact hsub
          · cases h
          · cases h

end GoPP

namespace GoPP

/-- Once inserted, an identity is never removed: any successful render
only grows the visited set. -/
theorem fmtFuel_sub (o : Opts) : ∀ (n : Nat) (ro : Bool) (d : Nat) (vis : List Nat)
    (v : Value) (s : String) (vis' : List Nat),
    fmtFuel o n ro d vis v = .ok s vis' → vis ⊆ vis' := by
  intro n
  induction n with
  | zero => intro ro d vis v s vis' h; simp [fmtFuel] at h
  | succ n ih =>
    intro ro d vis v s vis' h
    simp only [fmtFuel] at h
    split at h
    · cases h
    · split at h
      · cases h
      · cases h; exact fun _ ha => ha
      · cases h; exact fun _ ha => ha
      · cases h; exact fun _ ha => ha
      · cases h; exact fun _ ha => ha
      · cases h; exact fun _ ha => ha
      · cases h; exact fun _ ha => ha
      · -- map
        split at h
        · cases h; exact fun _ ha => ha
        · split at h
          · cases h; exact fun _ ha => ha
          · split at h
            · rename_i s₁ vis₁ hfold
              cases h
              rcases foldl_ok_sub
                  (entryStep_sub fun v' w s u hh => ih false (d + 1) w v' s u hh)
                  _ _ _ _ hfold with ⟨s₀, vis₀, hacc, hsub⟩
              cases hacc
              exact (List.subset_cons_self _ _).trans hsub
            · cases h
            · cases h
      · -- struct
        split at h
        · cases h; exact fun _ ha => ha
        · split at h
          · rename_i s₁ vis₁ hfold
            cases h
            rcases foldl_ok_sub
                (fieldStep_sub fun ro' v' w s u hh => ih ro' (d + 1) w v' s u hh)
                _ _ _ _ hfold with ⟨s₀, vis₀, hacc, hsub⟩
            cases hacc
            exact hsub
          · cases h
          · cases h
      · cases h; exact fun _ ha => ha
      · cases h; exact fun _ ha => ha
      · cases h; exact fun _ ha => ha
      · -- array
        split at h
        · cases h; exact fun _ ha => ha
        · exact sliceBody_sub (fun d' v' w s u hh => ih false d' w v' s u hh) h
      · -- slice
        split at h
        · cases h; exact fun _ ha => ha
        · split at h
          · cases h; exact fun _ ha => ha
          · split at h
            · cases h; exact fun _ ha => ha
            · exact (List.subset_cons_self _ _).trans
                (sliceBody_sub (fun d' v' w s u hh => ih false d' w v' s u hh) h)
      · -- ptr
        split at h
        · cases h; exact fun _ ha => ha
        · split at h
          · split at h
            · rename_i s₂ vis₂ hrec
              cases h
              refine List.Subset.trans ?_ (ih false d _ _ _ _ hrec)
              split
              · exact List.subset_cons_self _ _
              · exact fun _ ha => ha
            · cases h
            · cases h
          · cases h
            split
            · exact List.subset_cons_self _ _
            · exact fun _ ha => ha
      · -- iface
        split at h
        · cases h; exact fun _ ha => ha
        · exact ih false d vis _ s vis' h
      · cases h; exact fun _ ha => ha
      · cases h; exact fun _ ha => ha
      · cases h; exact fun _ ha => ha

end GoPP

namespace GoPP

/-- C1: the claim says `Format` never fails or aborts, in particular on
struct values containing unexported fields with the exported-only option
off.  The code violates this: `Format` calls `pp.value.Interface()` for
the `PrettyPrint` capability check on every value, and that call panics
for a value obtained from an unexported field, so formatting
`struct{ n int }{ n: 1 }` with exported-only off panics as soon as the
field is reached.  This theorem evaluates the embedded code at that
failing input. -/
theorem C1_unexported_field_panics :
    fmtFuel ⟨none, true, false, false⟩ 3 false 0 []
      (.vstruct ⟨.struct, "main.T"⟩ [("n", "", false, .vint ⟨.int, "int"⟩ 1)]) =
      .crashed := by
  decide

/-- C3: the Ordering Module's `Less` is exactly the comparison the claim
describes (first conjunct, a refinement of `keyLess` against
`specKeyLess`, which transcribes the claim's clauses), and the sort is
stable: a pair of entries in iteration order whose second key is not
`Less` than the first — in particular any tied pair — keeps its relative
order in the sorted entry list (second conjunct). -/
theorem C3_ordering_matches_spec_and_stable :
    (∀ a b : Value, keyLess a b = specKeyLess a b) ∧
    (∀ (l : List (Value × Value)) (x y : Value × Value),
      List.Sublist [x, y] l → keyLess y.1 x.1 = false →
      List.Sublist [x, y] (sortEntries l)) := by
  constructor
  · intro a b
    unfold keyLess specKeyLess
    split_ifs with h
    · rfl
    · cases a <;> cases b <;> try rfl
      · rename_i ta ba tb bb
        cases ba <;> cases bb <;> rfl
      · rename_i ta fx tb fy
        cases fx <;> cases fy <;> simp [GoFloat.val]
  · intro l x y hsub hr
    exact List.pair_sublist_insertionSort (r := entryRel) hr hsub

/-- Witness for C3 at concrete inputs: an `int` key and a `string` key of
different runtime types are tied, and a tied pair keeps its order. -/
theorem C3_witness :
    keyLess (.vint ⟨.int, "int"⟩ 3) (.vstring ⟨.string, "string"⟩ "a") =
      specKeyLess (.vint ⟨.int, "int"⟩ 3) (.vstring ⟨.string, "string"⟩ "a") ∧
    List.Sublist
      [((.vint ⟨.int, "int"⟩ 3 : Value), (.vint ⟨.int, "int"⟩ 0 : Value)),
       ((.vstring ⟨.string, "string"⟩ "a" : Value), (.vint ⟨.int, "int"⟩ 1 : Value))]
      (sortEntries
        [((.vint ⟨.int, "int"⟩ 3 : Value), (.vint ⟨.int, "int"⟩ 0 : Value)),
         ((.vstring ⟨.string, "string"⟩ "a" : Value), (.vint ⟨.int, "int"⟩ 1 : Value))]) :=
  ⟨C3_ordering_matches_spec_and_stable.1 _ _,
    C3_ordering_matches_spec_and_stable.2 _ _ _ (List.Sublist.refl _) (by decide)⟩

/-- C4: the group-size computation for string sequences.  When the
longest string has positive length the group size is `36 /` that length
(first conjunct, the claim's arithmetic); but when every string is empty
the divisor is zero and the source's `36 / stringGroupSize(...)`
panics with an integer divide-by-zero (second conjunct), so rendering a
non-empty all-empty `[]string` crashes rather than succeeding (third
conjunct: the embedded code at the failing input `[]string{""}`),
contradicting the claim's "rendering still succeeds". -/
theorem C4_string_group_size_and_crash :
    (∀ es : List Value, 0 < stringMaxLen es →
      sliceGroupSize "[]string" GoKind.string es = some (36 / stringMaxLen es)) ∧
    (∀ es : List Value, stringMaxLen es = 0 →
      sliceGroupSize "[]string" GoKind.string es = none) ∧
    fmtFuel ⟨none, true, false, false⟩ 3 false 0 []
      (.vslice ⟨.slice, "[]string"⟩ ⟨.string, "string"⟩ 5 false
        [.vstring ⟨.string, "string"⟩ ""]) = .crashed := by
  refine ⟨?_, ?_, by decide⟩
  · intro es h
    simp [sliceGroupSize, Nat.pos_iff_ne_zero.mp h]
  · intro es h
    simp [sliceGroupSize, h]

/-- Witness for C4's quantified conjuncts at concrete inputs. -/
theorem C4_witness :
    sliceGroupSize "[]string" GoKind.string [.vstring ⟨.string, "string"⟩ "ab"] =
      some (36 / stringMaxLen [.vstring ⟨.string, "string"⟩ "ab"]) ∧
    sliceGroupSize "[]string" GoKind.string [] = none :=
  ⟨C4_string_group_size_and_crash.1 _ (by decide),
    C4_string_group_size_and_crash.2.1 _ (by decide)⟩

/-- C9: a sequence longer than 1024 elements renders as the elision
`Type{...}` and no element is rendered, for slices (which are first
marked visited) and fixed-size arrays alike, whatever the element type. -/
theorem C9_large_sequence_elided :
    (∀ (o : Opts) (n d : Nat) (vis : List Nat) (t et : GoType) (a : Nat)
      (es : List Value), 1024 < es.length → a ∉ vis →
      fmtFuel o (n + 1) false d vis (.vslice t et a false es) =
        .ok (colorizeType o t.name ++ "\x7b...\x7d") (a :: vis)) ∧
    (∀ (o : Opts) (n d : Nat) (vis : List Nat) (t et : GoType)
      (es : List Value), 1024 < es.length →
      fmtFuel o (n + 1) false d vis (.varray t et es) =
        .ok (colorizeType o t.name ++ "\x7b...\x7d") vis) := by
  constructor
  · intro o n d vis t et a es hlen ha
    have h0 : ¬ es.length = 0 := by omega
    simp [fmtFuel, sliceBody, h0, ha, hlen]
  · intro o n d vis t et es hlen
    have h0 : ¬ es.length = 0 := by omega
    simp [fmtFuel, sliceBody, h0, hlen]

set_option maxRecDepth 8000 in
/-- Witness for C9 on a concrete 1025-element slice and array. -/
theorem C9_witness :
    fmtFuel ⟨none, true, false, false⟩ 1 false 0 []
        (.vslice ⟨.slice, "[]bool"⟩ ⟨.bool, "bool"⟩ 1 false
          (List.replicate 1025 (.vbool ⟨.bool, "bool"⟩ true))) =
      .ok (colorizeType ⟨none, true, false, false⟩ "[]bool" ++ "\x7b...\x7d") [1] ∧
    fmtFuel ⟨none, true, false, false⟩ 1 false 0 []
        (.varray ⟨.array, "[1025]bool"⟩ ⟨.bool, "bool"⟩
          (List.replicate 1025 (.vbool ⟨.bool, "bool"⟩ true))) =
      .ok (colorizeType ⟨none, true, false, false⟩ "[1025]bool" ++ "\x7b...\x7d") [] :=
  ⟨C9_large_sequence_elided.1 _ 0 0 _ _ _ _ _ (by simp) (by simp),
    C9_large_sequence_elided.2 _ 0 0 _ _ _ _ (by simp)⟩

/-- C10: a `Format` call renders into a fresh sub-printer, so it leaves
the parent printer's buffered output and depth untouched; the only state
it can change is the shared visited set, which only gains entries, and
`String()` after the call returns the same buffered output as before. -/
theorem C10_format_is_frame_safe (o : Opts) (fuel : Nat) (p : PState) (v : Value) :
    ((formatCall o fuel p v).2).out = p.out ∧
    ((formatCall o fuel p v).2).depth = p.depth ∧
    p.vis ⊆ ((formatCall o fuel p v).2).vis ∧
    PString ((formatCall o fuel p v).2) = PString p := by
  unfold formatCall PString
  cases h : fmtFuel o fuel false p.depth p.vis v with
  | ok s vis' =>
    refine ⟨rfl, rfl, ?_, rfl⟩
    exact fmtFuel_sub o fuel false p.depth p.vis v s vis' h
  | crashed => exact ⟨rfl, rfl, fun _ ha => ha, rfl⟩
  | nofuel => exact ⟨rfl, rfl, fun _ ha => ha, rfl⟩

set_option maxRecDepth 8000 in
/-- C7: byte-like elements group by 16, 16-bit by 8, 32-bit by 8, 64-bit
by 4 (first four conjuncts); and the 20-byte sequence renders with a
newline after the 16th element and after the final element, with one
space between elements within a group and a tab indent opening each
group line (last conjunct: the full emitted text). -/
theorem C7_sequence_grouping :
    (∀ (tn : String) (es : List Value), sliceGroupSize tn GoKind.uint8 es = some 16) ∧
    (∀ (tn : String) (es : List Value), sliceGroupSize tn GoKind.uint16 es = some 8) ∧
    (∀ (tn : String) (es : List Value), sliceGroupSize tn GoKind.uint32 es = some 8) ∧
    (∀ (tn : String) (es : List Value), sliceGroupSize tn GoKind.uint64 es = some 4) ∧
    fmtFuel ⟨none, true, false, false⟩ 3 false 0 []
        (.vslice ⟨.slice, "[]uint8"⟩ ⟨.uint8, "uint8"⟩ 3 false
          ((List.range 20).map fun i => .vuint ⟨.uint8, "uint8"⟩ i)) =
      .ok "\x7b\n\t0, 1, 2, 3, 4, 5, 6, 7, 8, 9, 10, 11, 12, 13, 14, 15,\n\t16, 17, 18, 19,\n\x7d"
        [3] :=
  ⟨fun _ _ => rfl, fun _ _ => rfl, fun _ _ => rfl, fun _ _ => rfl, by decide⟩

end GoPP

namespace GoPP

/-- C2 counterexample: two maps holding identical `(key, value)` entries
— keys `[1]int{1}` and `[1]int{2}`, two distinct fixed-size-array keys of
one type and equal length — in the two possible iteration orders render
to different text: the comparison ties all array keys of equal length, so
the stable sort preserves either iteration order and the entry lines come
out in different orders.  The claim's universal map determinism is
therefore false. -/
theorem C2_counterexample :
    fmtFuel ⟨none, true, false, false⟩ 6 false 0 []
        (.vmap ⟨.map, "map[[1]int]int"⟩ 9 false
          [(.varray ⟨.array, "[1]int"⟩ ⟨.int, "int"⟩ [.vint ⟨.int, "int"⟩ 1],
              .vint ⟨.int, "int"⟩ 1),
           (.varray ⟨.array, "[1]int"⟩ ⟨.int, "int"⟩ [.vint ⟨.int, "int"⟩ 2],
              .vint ⟨.int, "int"⟩ 2)]) ≠
      fmtFuel ⟨none, true, false, false⟩ 6 false 0 []
        (.vmap ⟨.map, "map[[1]int]int"⟩ 9 false
          [(.varray ⟨.array, "[1]int"⟩ ⟨.int, "int"⟩ [.vint ⟨.int, "int"⟩ 2],
              .vint ⟨.int, "int"⟩ 2),
           (.varray ⟨.array, "[1]int"⟩ ⟨.int, "int"⟩ [.vint ⟨.int, "int"⟩ 1],
              .vint ⟨.int, "int"⟩ 1)]) := by
  decide

/-- C2 as amended: two `Format` calls on a map holding identical entries
in different native iteration orders yield byte-identical output (the
whole render result is equal) provided every key is a string of one
runtime type and the keys are distinct — the kinds for which the
Ordering Module's comparison totally orders distinct keys.  Options and
color scheme are arbitrary but shared, as the claim requires. -/
theorem C2_string_keyed_maps_deterministic
    (o : Opts) (n d : Nat) (vis : List Nat) (t st : GoType) (a : Nat) (isNil : Bool)
    (e₁ e₂ : List (Value × Value))
    (hperm : e₁.Perm e₂)
    (hstr : ∀ p ∈ e₁, ∃ s, p.1 = Value.vstring st s)
    (hnd : (e₁.map Prod.fst).Nodup) :
    fmtFuel o n false d vis (.vmap t a isNil e₁) =
      fmtFuel o n false d vis (.vmap t a isNil e₂) := by
  cases n with
  | zero => rfl
  | succ n =>
    have hs := sortEntries_det hstr hnd hperm
    have hlen := hperm.length_eq
    simp only [fmtFuel, hlen, hs]

/-- Witness for C2's amended theorem: a two-entry string-keyed map in its
two iteration orders renders identically. -/
theorem C2_witness :
    fmtFuel ⟨none, true, false, false⟩ 4 false 0 []
        (.vmap ⟨.map, "map[string]int"⟩ 9 false
          [(.vstring ⟨.string, "string"⟩ "b", .vint ⟨.int, "int"⟩ 2),
           (.vstring ⟨.string, "string"⟩ "a", .vint ⟨.int, "int"⟩ 1)]) =
      fmtFuel ⟨none, true, false, false⟩ 4 false 0 []
        (.vmap ⟨.map, "map[string]int"⟩ 9 false
          [(.vstring ⟨.string, "string"⟩ "a", .vint ⟨.int, "int"⟩ 1),
           (.vstring ⟨.string, "string"⟩ "b", .vint ⟨.int, "int"⟩ 2)]) := by
  refine C2_string_keyed_maps_deterministic _ _ _ _ _ ⟨.string, "string"⟩ _ _ _ _
    (List.Perm.swap _ _ _) ?_ ?_
  · intro p hp
    rcases List.mem_cons.mp hp with h | hp2
    · exact ⟨"b", by rw [h]⟩
    · rcases List.mem_cons.mp hp2 with h | h
      · exact ⟨"a", by rw [h]⟩
      · cases h
  · refine List.nodup_cons.mpr ⟨?_, List.nodup_singleton _⟩
    intro hmem
    rcases List.mem_singleton.mp hmem with h
    injection h with h1 h2
    exact absurd h2 (by decide)

/-- C6: rendering of unsigned and signed integers.  With "prefer
decimal" off, each sized unsigned kind renders as `0x` plus exactly
2/4/8/16 zero-padded lowercase hex digits; with it on, as decimal (the
8-bit case never localizes; the wider ones are plain decimal when the
thousands-separator option is off).  Signed integers render as decimal
regardless of the flag: the output is flag-independent, and with the
separator option off it is the plain decimal text. -/
theorem C6_unsigned_hex_signed_decimal :
    (∀ (o : Opts) (n d : Nat) (vis : List Nat) (nm : String) (m : Nat),
      o.decimalUint = false →
      fmtFuel o (n + 1) false d vis (.vuint ⟨.uint8, nm⟩ m) =
        .ok (o.colorize ("0x" ++ fixedHex 2 (uintVal .uint8 m)) .IntegerColor) vis ∧
      (fixedHex 2 (uintVal .uint8 m)).length = 2) ∧
    (∀ (o : Opts) (n d : Nat) (vis : List Nat) (nm : String) (m : Nat),
      o.decimalUint = false →
      fmtFuel o (n + 1) false d vis (.vuint ⟨.uint16, nm⟩ m) =
        .ok (o.colorize ("0x" ++ fixedHex 4 (uintVal .uint16 m)) .IntegerColor) vis ∧
      (fixedHex 4 (uintVal .uint16 m)).length = 4) ∧
    (∀ (o : Opts) (n d : Nat) (vis : List Nat) (nm : String) (m : Nat),
      o.decimalUint = false →
      fmtFuel o (n + 1) false d vis (.vuint ⟨.uint32, nm⟩ m) =
        .ok (o.colorize ("0x" ++ fixedHex 8 (uintVal .uint32 m)) .IntegerColor) vis ∧
      (fixedHex 8 (uintVal .uint32 m)).length = 8) ∧
    (∀ (o : Opts) (n d : Nat) (vis : List Nat) (nm : String) (m : Nat),
      o.decimalUint = false →
      fmtFuel o (n + 1) false d vis (.vuint ⟨.uint64, nm⟩ m) =
        .ok (o.colorize ("0x" ++ fixedHex 16 (uintVal .uint64 m)) .IntegerColor) vis ∧
      (fixedHex 16 (uintVal .uint64 m)).length = 16) ∧
    (∀ (o : Opts) (n d : Nat) (vis : List Nat) (nm : String) (m : Nat),
      o.decimalUint = true →
      fmtFuel o (n + 1) false d vis (.vuint ⟨.uint8, nm⟩ m) =
        .ok (o.colorize (toString (uintVal .uint8 m)) .IntegerColor) vis) ∧
    (∀ (o : Opts) (n d : Nat) (vis : List Nat) (nm : String) (m : Nat),
      o.decimalUint = true → o.thousandsSeparator = false →
      fmtFuel o (n + 1) false d vis (.vuint ⟨.uint16, nm⟩ m) =
        .ok (o.colorize (toString (uintVal .uint16 m)) .IntegerColor) vis) ∧
    (∀ (o : Opts) (n d : Nat) (vis : List Nat) (nm : String) (m : Nat),
      o.decimalUint = true → o.thousandsSeparator = false →
      fmtFuel o (n + 1) false d vis (.vuint ⟨.uint32, nm⟩ m) =
        .ok (o.colorize (toString (uintVal .uint32 m)) .IntegerColor) vis) ∧
    (∀ (o : Opts) (n d : Nat) (vis : List Nat) (nm : String) (m : Nat),
      o.decimalUint = true → o.thousandsSeparator = false →
      fmtFuel o (n + 1) false d vis (.vuint ⟨.uint64, nm⟩ m) =
        .ok (o.colorize (toString (uintVal .uint64 m)) .IntegerColor) vis) ∧
    (∀ (cs : Option ColorScheme) (b₁ b₂ eo ts : Bool) (n d : Nat) (vis : List Nat)
      (t : GoType) (i : Int),
      fmtFuel ⟨cs, b₁, eo, ts⟩ (n + 1) false d vis (.vint t i) =
        fmtFuel ⟨cs, b₂, eo, ts⟩ (n + 1) false d vis (.vint t i)) ∧
    (∀ (o : Opts) (n d : Nat) (vis : List Nat) (t : GoType) (i : Int),
      o.thousandsSeparator = false →
      fmtFuel o (n + 1) false d vis (.vint t i) =
        .ok (o.colorize (if i < 0 then toString i else toString i.natAbs)
          .IntegerColor) vis) := by
  refine ⟨?_, ?_, ?_, ?_, ?_, ?_, ?_, ?_, ?_, ?_⟩
  · intro o n d vis nm m h
    exact ⟨by simp [fmtFuel, h], by simp [fixedHex, String.length]⟩
  · intro o n d vis nm m h
    exact ⟨by simp [fmtFuel, h], by simp [fixedHex, String.length]⟩
  · intro o n d vis nm m h
    exact ⟨by simp [fmtFuel, h], by simp [fixedHex, String.length]⟩
  · intro o n d vis nm m h
    exact ⟨by simp [fmtFuel, h], by simp [fixedHex, String.length]⟩
  · intro o n d vis nm m h
    simp [fmtFuel, h]
  · intro o n d vis nm m h hts
    simp [fmtFuel, h, locNat, hts]
  · intro o n d vis nm m h hts
    simp [fmtFuel, h, locNat, hts]
  · intro o n d vis nm m h hts
    simp [fmtFuel, h, locNat, hts]
  · intro cs b₁ b₂ eo ts n d vis t i
    rfl
  · intro o n d vis t i hts
    simp [fmtFuel, locInt, locNat, hts]

/-- Witness for C6 at the claim's example value 255 (8-bit): hex off the
flag gives `0xff`, the flag gives `255`; and at a negative signed
value. -/
theorem C6_witness :
    (fmtFuel ⟨none, false, false, false⟩ 1 false 0 [] (.vuint ⟨.uint8, "uint8"⟩ 255) =
      .ok (Opts.colorize ⟨none, false, false, false⟩
        ("0x" ++ fixedHex 2 (uintVal .uint8 255)) .IntegerColor) [] ∧
      (fixedHex 2 (uintVal .uint8 255)).length = 2) ∧
    "0x" ++ fixedHex 2 (uintVal .uint8 255) = "0xff" ∧
    (fmtFuel ⟨none, true, false, false⟩ 1 false 0 [] (.vuint ⟨.uint8, "uint8"⟩ 255) =
      .ok (Opts.colorize ⟨none, true, false, false⟩
        (toString (uintVal .uint8 255)) .IntegerColor) []) ∧
    toString (uintVal .uint8 255) = "255" ∧
    (fmtFuel ⟨none, true, false, false⟩ 1 false 0 [] (.vint ⟨.int, "int"⟩ (-7)) =
      .ok (Opts.colorize ⟨none, true, false, false⟩
        (if (-7 : Int) < 0 then toString (-7 : Int) else toString (-7 : Int).natAbs)
        .IntegerColor) []) :=
  ⟨C6_unsigned_hex_signed_decimal.1 _ 0 0 [] "uint8" 255 rfl, by decide,
    C6_unsigned_hex_signed_decimal.2.2.2.2.1 _ 0 0 [] "uint8" 255 rfl, by decide,
    C6_unsigned_hex_signed_decimal.2.2.2.2.2.2.2.2.2 _ 0 0 [] _ (-7) rfl⟩

end GoPP

namespace GoPP

/-- C5: cycle safety.  (1) A successful render only ever grows the
shared visited set — an identity once inserted is never removed.
(2)–(4) A non-empty map, slice or pointer whose identity is already in
the visited set renders as the elision marker `Type{...}` (for pointers
`&ElemType{...}`) without being traversed, leaving the visited set
unchanged.  (5) A self-referential map — one whose single entry holds a
pointer back to the map itself — terminates in three nesting steps
whatever its inner unrolling `es` holds: the second occurrence of the
map's identity renders as `&Type{...}`, so the output is independent of
`es`, and both the map's and the pointer's identities end up visited. -/
theorem C5_cycle_elision_and_visited_monotone :
    (∀ (o : Opts) (n : Nat) (ro : Bool) (d : Nat) (vis : List Nat) (v : Value)
      (s : String) (vis' : List Nat),
      fmtFuel o n ro d vis v = .ok s vis' → vis ⊆ vis') ∧
    (∀ (o : Opts) (n d : Nat) (vis : List Nat) (t : GoType) (a : Nat) (isNil : Bool)
      (es : List (Value × Value)), es ≠ [] → a ∈ vis →
      fmtFuel o (n + 1) false d vis (.vmap t a isNil es) =
        .ok (colorizeType o t.name ++ "\x7b...\x7d") vis) ∧
    (∀ (o : Opts) (n d : Nat) (vis : List Nat) (t et : GoType) (a : Nat)
      (es : List Value), es ≠ [] → a ∈ vis →
      fmtFuel o (n + 1) false d vis (.vslice t et a false es) =
        .ok (colorizeType o t.name ++ "\x7b...\x7d") vis) ∧
    (∀ (o : Opts) (n d : Nat) (vis : List Nat) (t et : GoType) (a : Nat)
      (e : Option Value), a ∈ vis →
      fmtFuel o (n + 1) false d vis (.vptr t et a e) =
        .ok ("&" ++ colorizeType o et.name ++ "\x7b...\x7d") vis) ∧
    (∀ (o : Opts) (n d : Nat) (vis : List Nat) (t st pt : GoType) (a pa : Nat)
      (k : String) (es : List (Value × Value)),
      a ∉ vis → pa ∉ vis → pa ≠ a → pa ≠ 0 → es ≠ [] →
      fmtFuel o (n + 1 + 1 + 1) false d vis
          (.vmap t a false [(.vstring st k, .vptr pt t pa (some (.vmap t a false es)))]) =
        .ok (colorizeType o t.name ++ "\x7b\n" ++ indentT (d + 1) ++ printStr o k ++
          ":\t" ++ ("&" ++ (colorizeType o t.name ++ "\x7b...\x7d")) ++ ",\n" ++
          indentT d ++ "\x7d") (pa :: a :: vis)) := by
  refine ⟨fmtFuel_sub, ?_, ?_, ?_, ?_⟩
  · intro o n d vis t a isNil es hne ha
    have h0 : ¬ es.length = 0 := by simpa [List.length_eq_zero] using hne
    simp [fmtFuel, h0, ha]
  · intro o n d vis t et a es hne ha
    have h0 : ¬ es.length = 0 := by simpa [List.length_eq_zero] using hne
    simp [fmtFuel, h0, ha]
  · intro o n d vis t et a e ha
    simp [fmtFuel, ha]
  · intro o n d vis t st pt a pa k es ha hpa hpaa hpa0 hes
    have h0 : ¬ es.length = 0 := by simpa [List.length_eq_zero] using hes
    simp [fmtFuel, ha, h0, hpaa, hpa, hpa0, sortEntries, List.insertionSort,
      List.orderedInsert, entryStep, String.append_assoc]

/-- Witness for C5 at concrete inputs: an already-visited map elides, and
a concrete self-referential map renders with the inner occurrence
elided. -/
theorem C5_witness :
    fmtFuel ⟨none, true, false, false⟩ 1 false 0 [7]
        (.vmap ⟨.map, "map[int]int"⟩ 7 false
          [(.vint ⟨.int, "int"⟩ 1, .vint ⟨.int, "int"⟩ 2)]) =
      .ok (colorizeType ⟨none, true, false, false⟩ "map[int]int" ++ "\x7b...\x7d") [7] ∧
    fmtFuel ⟨none, true, false, false⟩ (0 + 1 + 1 + 1) false 0 []
        (.vmap ⟨.map, "map[string]*M"⟩ 1 false
          [(.vstring ⟨.string, "string"⟩ "k",
            .vptr ⟨.ptr, "*M"⟩ ⟨.map, "map[string]*M"⟩ 2
              (some (.vmap ⟨.map, "map[string]*M"⟩ 1 false
                [(.vstring ⟨.string, "string"⟩ "x", .vint ⟨.int, "int"⟩ 0)])))]) =
      .ok (colorizeType ⟨none, true, false, false⟩ "map[string]*M" ++ "\x7b\n" ++
        indentT 1 ++ printStr ⟨none, true, false, false⟩ "k" ++ ":\t" ++
        ("&" ++ (colorizeType ⟨none, true, false, false⟩ "map[string]*M" ++
          "\x7b...\x7d")) ++ ",\n" ++ indentT 0 ++ "\x7d") [2, 1] :=
  ⟨C5_cycle_elision_and_visited_monotone.2.1 _ 0 0 _ _ 7 false _ (by simp) (by simp),
    C5_cycle_elision_and_visited_monotone.2.2.2.2 _ 0 0 [] _ _ _ 1 2 "k" _
      (by simp) (by simp) (by decide) (by decide) (by simp)⟩

/-- C8: struct field omission.  A field whose two-part `pp` tag ends in
`omitempty` is absent when its value is the shape's zero value — the
struct then renders as `TypeName{}`, which is also the rendering whenever
no fields survive filtering — and present (with its tag-renamed display
name) when the value is non-zero; a field tagged `-` is always absent. -/
theorem C8_omitempty_field_filtering :
    (∀ (o : Opts) (n d : Nat) (vis : List Nat) (t : GoType) (fn tag p0 : String)
      (fv : Value),
      splitOnChar ',' [] tag.data = [p0, "omitempty"] → tag ≠ "" →
      vZeroF n fv = true →
      fmtFuel o (n + 1) false d vis (.vstruct t [(fn, tag, true, fv)]) =
        .ok (colorizeType o t.name ++ "\x7b\x7d") vis) ∧
    (∀ (o : Opts) (n d : Nat) (vis : List Nat) (t : GoType) (fn tag p0 : String)
      (fv : Value) (s' : String) (vis' : List Nat),
      splitOnChar ',' [] tag.data = [p0, "omitempty"] → tag ≠ "" → p0 ≠ "-" →
      vZeroF n fv = false →
      fmtFuel o n false (d + 1) vis fv = .ok s' vis' →
      fmtFuel o (n + 1) false d vis (.vstruct t [(fn, tag, true, fv)]) =
        .ok (colorizeType o t.name ++ "\x7b\n" ++ indentT (d + 1) ++
          o.colorize (displayName (fn, tag, true, fv)) .FieldNameColor ++ ":\t" ++
          s' ++ ",\n" ++ indentT d ++ "\x7d") vis') ∧
    (∀ (o : Opts) (n d : Nat) (vis : List Nat) (t : GoType) (fn : String) (fv : Value),
      fmtFuel o (n + 1) false d vis (.vstruct t [(fn, "-", true, fv)]) =
        .ok (colorizeType o t.name ++ "\x7b\x7d") vis) := by
  refine ⟨?_, ?_, ?_⟩
  · intro o n d vis t fn tag p0 fv hparse htag hz
    simp [fmtFuel, keepField, fTag, fExp, fVal, hparse, htag, hz, List.filter]
  · intro o n d vis t fn tag p0 fv s' vis' hparse htag hp0 hz hr
    have hp0' : (p0 == "-") = false := beq_eq_false_iff_ne.mpr hp0
    simp [fmtFuel, keepField, fTag, fExp, fVal, hparse, htag, hp0', hz, List.filter,
      fieldStep, hr, String.append_assoc]
  · intro o n d vis t fn fv
    have hparse : splitOnChar ',' [] ['-'] = ["-"] := rfl
    simp [fmtFuel, keepField, fTag, fExp, fVal, hparse, List.filter]

/-- Witness for C8: the same `pp:"x,omitempty"` field is absent holding
the zero `int` and present holding `5`; a `pp:"-"` field is absent; an
omitempty field holding the zero `time.Time` or a zero
`PrettyPrint`-capable value (`BootIndex(0)`) is absent; an omitempty
field holding the negative zero float — not zero to `Float64bits` — is
present, rendered `-0.000000`. -/
theorem C8_witness :
    fmtFuel ⟨none, true, false, false⟩ 2 false 0 []
        (.vstruct ⟨.struct, "main.T"⟩
          [("N", "x,omitempty", true, .vint ⟨.int, "int"⟩ 0)]) =
      .ok (colorizeType ⟨none, true, false, false⟩ "main.T" ++ "\x7b\x7d") [] ∧
    fmtFuel ⟨none, true, false, false⟩ 2 false 0 []
        (.vstruct ⟨.struct, "main.T"⟩
          [("N", "x,omitempty", true, .vint ⟨.int, "int"⟩ 5)]) =
      .ok (colorizeType ⟨none, true, false, false⟩ "main.T" ++ "\x7b\n" ++ indentT 1 ++
        Opts.colorize ⟨none, true, false, false⟩
          (displayName ("N", "x,omitempty", true, .vint ⟨.int, "int"⟩ 5))
          .FieldNameColor ++ ":\t" ++ "5" ++ ",\n" ++ indentT 0 ++ "\x7d") [] ∧
    fmtFuel ⟨none, true, false, false⟩ 2 false 0 []
        (.vstruct ⟨.struct, "main.T"⟩ [("N", "-", true, .vint ⟨.int, "int"⟩ 5)]) =
      .ok (colorizeType ⟨none, true, false, false⟩ "main.T" ++ "\x7b\x7d") [] ∧
    fmtFuel ⟨none, true, false, false⟩ 2 false 0 []
        (.vstruct ⟨.struct, "main.T"⟩
          [("When", "when,omitempty", true,
            .vtime ⟨.struct, "time.Time"⟩ 1 1 1 0 0 0 "UTC" true)]) =
      .ok (colorizeType ⟨none, true, false, false⟩ "main.T" ++ "\x7b\x7d") [] ∧
    fmtFuel ⟨none, true, false, false⟩ 2 false 0 []
        (.vstruct ⟨.struct, "main.T"⟩
          [("Idx", "idx,omitempty", true,
            .vcustom ⟨.uint16, "efivario.BootIndex"⟩ "Boot0000" true)]) =
      .ok (colorizeType ⟨none, true, false, false⟩ "main.T" ++ "\x7b\x7d") [] ∧
    fmtFuel ⟨none, true, false, false⟩ 2 false 0 []
        (.vstruct ⟨.struct, "main.T"⟩
          [("F", "f,omitempty", true, .vfloat ⟨.float64, "float64"⟩ .negzero)]) =
      .ok (colorizeType ⟨none, true, false, false⟩ "main.T" ++ "\x7b\n" ++ indentT 1 ++
        Opts.colorize ⟨none, true, false, false⟩
          (displayName ("F", "f,omitempty", true, .vfloat ⟨.float64, "float64"⟩ .negzero))
          .FieldNameColor ++ ":\t" ++ "-0.000000" ++ ",\n" ++ indentT 0 ++ "\x7d") [] :=
  ⟨C8_omitempty_field_filtering.1 _ 1 0 [] _ "N" "x,omitempty" "x" _ (by decide)
      (by decide) (by decide),
    C8_omitempty_field_filtering.2.1 _ 1 0 [] _ "N" "x,omitempty" "x" _ "5" []
      (by decide) (by decide) (by decide) (by decide) (by decide),
    C8_omitempty_field_filtering.2.2 _ 1 0 [] _ "N" _,
    C8_omitempty_field_filtering.1 _ 1 0 [] _ "When" "when,omitempty" "when" _
      (by decide) (by decide) (by decide),
    C8_omitempty_field_filtering.1 _ 1 0 [] _ "Idx" "idx,omitempty" "idx" _
      (by decide) (by decide) (by decide),
    C8_omitempty_field_filtering.2.1 _ 1 0 [] _ "F" "f,omitempty" "f" _ "-0.000000" []
      (by decide) (by decide) (by decide) (by decide) (by decide)⟩

end GoPP
